import Mathlib

set_option maxRecDepth 100000

/-!
Shallow embedding of the retrieval-augmented conversation orchestrator from
the repository's RAG chatbot sources (the keyword-gated variant and its
near-duplicate), together with proofs of the specified properties.

Messages are modelled as role/content records, the LLM and the token counter
as oracle functions, and the LangGraph state channels as an explicit record
with append semantics on the message channel.
-/

inductive Role where
  | user
  | assistant
  | system
deriving DecidableEq, Repr

structure Msg where
  role : Role
  content : String
deriving DecidableEq, Repr

/-- Boolean test mirroring the source's filter `(m) => m.role === 'user'`. -/
def isUserMsg (m : Msg) : Bool :=
  match m.role with
  | Role.user => true
  | _ => false

/-- Boolean test for system-role messages. -/
def isSysMsg (m : Msg) : Bool :=
  match m.role with
  | Role.system => true
  | _ => false

/-- Substring containment over char lists, mirroring JS `String.includes`. -/
def containsSub (h n : List Char) : Bool :=
  match h with
  | [] => n.isEmpty
  | c :: t => n.isPrefixOf (c :: t) || containsSub t n

/-- `containsStr h n` is JS `h.includes(n)`. -/
def containsStr (h n : String) : Bool := containsSub h.toList n.toList

/-- ASCII lowercasing of one character, mirroring `toLowerCase` on the
ASCII range (the source's keywords and tokens are ASCII or CJK, and CJK
characters are fixed by `toLowerCase`). -/
def lowerChar (c : Char) : Char :=
  if 65 ≤ c.toNat ∧ c.toNat ≤ 90 then Char.ofNat (c.toNat + 32) else c

/-- String lowercasing mirroring JS `toLowerCase` on the relevant alphabet. -/
def toLowerStr (s : String) : String := String.mk (s.toList.map lowerChar)

/-- JS `Array.prototype.join(sep)`. -/
def joinSep (sep : String) : List String → String
  | [] => ""
  | [d] => d
  | d :: d2 :: rest => d ++ sep ++ joinSep sep (d2 :: rest)

/-- The hard-coded trigger-term list `knowledgeQueryKeywords` of the source. -/
def knowledgeQueryKeywords : List String :=
  ["langchain", "langgraph", "检索", "增强", "rag", "框架", "知识",
   "什么是", "如何", "为什么", "解释", "说明", "介绍"]

/-- The gate `shouldRetrieve` of the source, parameterised by the trigger-term
list and by the model-fallback oracle `classify`.  The second component of the
result counts how many times the model fallback was invoked, so that
short-circuiting of the lexical stage is observable. -/
def shouldRetrieveCore (keywords : List String) (classify : String → String)
    (messages : List Msg) : Bool × Nat :=
  match (messages.filter isUserMsg).getLast? with
  | none => (false, 0)
  | some last =>
    let lastUserMessage := last.content
    let containsKeyword := keywords.any (fun kw =>
      containsStr (toLowerStr lastUserMessage) (toLowerStr kw))
    if containsKeyword then (true, 0)
    else
      let response := classify lastUserMessage
      (containsStr (toLowerStr response) "是" || containsKeyword, 1)

/-- The gate with the configured trigger-term list. -/
def shouldRetrieve (classify : String → String) (messages : List Msg) : Bool × Nat :=
  shouldRetrieveCore knowledgeQueryKeywords classify messages

/-- The LangGraph state bag `RAGBotAnnotation` of the source, as an explicit
record: the message channel plus the three extra channels. -/
structure BotState where
  messages : List Msg
  language : Option String
  retrieval_documents : Option (List String)
  route : Option String
deriving DecidableEq, Repr

/-- A partial state update returned by one graph node: `messages` is appended
by the message channel's reducer, the other channels are last-value-wins when
provided. -/
structure Upd where
  messages : List Msg := []
  language : Option String := none
  retrieval_documents : Option (List String) := none
  route : Option String := none
deriving DecidableEq, Repr

/-- LangGraph channel semantics: append for `messages`, overwrite-if-provided
for the plain channels. -/
def applyUpd (s : BotState) (u : Upd) : BotState :=
  { messages := s.messages ++ u.messages,
    language := match u.language with | some l => some l | none => s.language,
    retrieval_documents :=
      match u.retrieval_documents with
      | some d => some d
      | none => s.retrieval_documents,
    route := match u.route with | some r => some r | none => s.route }

/-- The `routeBasedOnRetrieval` conditional node of the source. -/
def routeBasedOnRetrieval (classify : String → String) (state : BotState) : Upd :=
  { route := some (if (shouldRetrieve classify state.messages).1
                   then "retrieve" else "generate") }

/-- Cumulative token count of a message list under the token-counter oracle
(the source delegates to `llm.getNumTokens`). -/
def totalTokens (count : String → Nat) (l : List Msg) : Nat :=
  (l.map (fun m => count m.content)).sum

/-- Messages kept when the non-system part is cut at index `i`: the system
messages of the dropped prefix (`includeSystem: true`) followed by the
contiguous suffix from `i`. -/
def keepFrom (msgs : List Msg) (i : Nat) : List Msg :=
  (msgs.take i).filter isSysMsg ++ msgs.drop i

/-- A cut at `i` respects `startOn: 'human'`: the kept suffix is empty or
starts on a user message. -/
def startOK (msgs : List Msg) (i : Nat) : Bool :=
  match msgs.drop i with
  | [] => true
  | m :: _ => isUserMsg m

/-- The trimmed sequence starts on a user message (trivially when empty). -/
def startsOnUser (l : List Msg) : Bool :=
  match l with
  | [] => true
  | m :: _ => isUserMsg m

/-- A cut at `i` fits the token budget. -/
def fitsAt (count : String → Nat) (budget : Nat) (msgs : List Msg) (i : Nat) : Bool :=
  decide (totalTokens count (keepFrom msgs i) ≤ budget)

/-- Candidate cut indices: proper cuts whose kept suffix starts on a user
message.  `List.range` is increasing, so the first fitting candidate keeps
the longest admissible history. -/
def candIdx (msgs : List Msg) : List Nat :=
  (List.range msgs.length).filter (fun i => startOK msgs i)

/-- Modelled from the spec: the body of `trimMessages` from the orchestration
framework is not part of this repository; only its configuration is
(`maxTokens: 4000`, `strategy: 'last'`, `includeSystem: true`,
`allowPartial: false`, `startOn: 'human'`).  Per the spec, the trimmer keeps
the longest user-starting suffix (plus all system messages) that fits the
budget, trims whole turns only, and when no suffix fits it still keeps the
most recent user-starting suffix rather than silently dropping the latest
user input. -/
def trimmer (count : String → Nat) (budget : Nat) (msgs : List Msg) : List Msg :=
  match (candIdx msgs).find? (fun i => fitsAt count budget msgs i) with
  | some i => keepFrom msgs i
  | none =>
    match (candIdx msgs).getLast? with
    | some i => keepFrom msgs i
    | none => keepFrom msgs msgs.length

/-- The `SYSTEM_TEMPLATE` prompt string of the source. -/
def SYSTEM_TEMPLATE : String :=
  "你是一个智能助手，具有检索增强生成能力。\n请用{language}回答用户的问题。\n\n当用户提出问题时，你可以查询你的知识库。\n如果知识库中有相关信息，请使用这些信息来提供准确的回答。\n始终明确指出你的回答来源于检索到的知识。\n如果检索结果不包含问题的答案，请坦率地告知用户你无法基于可用文档回答问题，然后尝试用你自己的知识提供帮助。\n\n当回答时：\n1. 保持回答简洁明了\n2. 给出有根据的回答\n3. 如果引用了检索内容，明确指出内容来源\n4. 不要编造信息或提供误导性回答"

/-- Header the grounded branch inserts before the joined passages. -/
def RETRIEVAL_HEADER : String := "\n\n以下是与查询相关的检索结果：\n"

/-- Grounding instructions the grounded branch appends after the passages. -/
def RETRIEVAL_FOOTER : String :=
  "\n\n重要说明：\n1. 你必须基于这些检索结果回答问题\n2. 如果检索结果与问题相关，请明确引用这些内容\n3. 在回答开头表明你是基于检索结果回答的\n4. 即使检索结果不完全相关，也要尽量从中提取有用信息"

/-- The JS truthiness test `state.retrieval_documents && state.retrieval_documents.length > 0`. -/
def hasDocs (docs : Option (List String)) : Bool :=
  match docs with
  | some l => decide (0 < l.length)
  | none => false

/-- The system-instruction string the composer builds: grounded when passages
are present, the plain `SYSTEM_TEMPLATE` otherwise. -/
def systemPromptFor (docs : Option (List String)) : String :=
  if hasDocs docs then
    SYSTEM_TEMPLATE ++ RETRIEVAL_HEADER ++ joinSep "\n\n" (docs.getD [])
      ++ RETRIEVAL_FOOTER
  else SYSTEM_TEMPLATE

/-- The outgoing prompt: system instructions, the language tag to substitute
for the template's placeholder (substitution itself is performed by the
external prompt-template collaborator), and the trimmed history. -/
structure Prompt where
  system : String
  language : String
  messages : List Msg
deriving DecidableEq, Repr

/-- The `generateResponse` node of the source: trim the history, pick the
grounded or plain system instructions, resolve the language tag
(`state.language || DEFAULT_LANGUAGE || '中文'`), call the model once, and
return the reply as a single appended assistant message. -/
def generateResponse (llm : Prompt → String) (count : String → Nat) (budget : Nat)
    (envDefault : Option String) (state : BotState) : Upd :=
  let trimmed := trimmer count budget state.messages
  let prompt : Prompt :=
    { system := systemPromptFor state.retrieval_documents,
      language :=
        match state.language with
        | some l => l
        | none => match envDefault with | some d => d | none => "中文",
      messages := trimmed }
  { messages := [{ role := Role.assistant, content := llm prompt }] }

/-- Modelled from the spec: the vector index's `similarity_search` is owned by
an external collaborator and is not part of this repository.  Per the spec it
returns up to `k` passages ordered by non-increasing similarity to the query;
`sim` is the abstract similarity oracle and `store` the ingested passage
texts. -/
def similaritySearch (store : List String) (sim : String → String → Int)
    (query : String) (k : Nat) : List String :=
  (store.insertionSort (fun a b => sim query b ≤ sim query a)).take k

/-- The `retrieveDocuments` node of the source: query with the latest user
message, ask for `k = 3` passages, and return their texts (the empty list
when there is no user message or nothing is found). -/
def retrieveDocumentsNode (store : List String) (sim : String → String → Int)
    (state : BotState) : Upd :=
  match (state.messages.filter isUserMsg).getLast? with
  | none => { retrieval_documents := some [] }
  | some m => { retrieval_documents := some (similaritySearch store sim m.content 3) }

/-- One whole `submit_turn` of the compiled graph: merge the caller's input
into the state, run the router node, run the retrieve node iff the recorded
route is `retrieve`, then run the generate node. -/
def runTurn (classify : String → String) (llm : Prompt → String)
    (store : List String) (sim : String → String → Int)
    (count : String → Nat) (budget : Nat) (envDefault : Option String)
    (s0 : BotState) (input : Upd) : BotState :=
  let s1 := applyUpd s0 input
  let s2 := applyUpd s1 (routeBasedOnRetrieval classify s1)
  let s3 := if s2.route = some "retrieve"
            then applyUpd s2 (retrieveDocumentsNode store sim s2)
            else s2
  applyUpd s3 (generateResponse llm count budget envDefault s3)

/-! Helper lemmas about substring containment. -/

theorem isPrefixOf_self_append (n t : List Char) : n.isPrefixOf (n ++ t) = true := by
  induction n with
  | nil => simp [List.isPrefixOf]
  | cons c n ih => simp [List.isPrefixOf, ih]

theorem containsSub_nil_needle (h : List Char) : containsSub h [] = true := by
  cases h with
  | nil => rfl
  | cons c t => simp [containsSub, List.isPrefixOf]

theorem containsSub_self_append (n t : List Char) : containsSub (n ++ t) n = true := by
  cases n with
  | nil => exact containsSub_nil_needle t
  | cons c n' => simp [containsSub, isPrefixOf_self_append]

theorem containsSub_append_left (g h n : List Char) (hc : containsSub h n = true) :
    containsSub (g ++ h) n = true := by
  induction g with
  | nil => simpa using hc
  | cons c g' ih => simp [containsSub, ih]

theorem isPrefixOf_extend (n h t : List Char) (hp : n.isPrefixOf h = true) :
    n.isPrefixOf (h ++ t) = true := by
  induction n generalizing h with
  | nil => simp [List.isPrefixOf]
  | cons c n' ih =>
    cases h with
    | nil => simp [List.isPrefixOf] at hp
    | cons d h' =>
      simp only [List.isPrefixOf, List.cons_append, Bool.and_eq_true] at hp ⊢
      exact ⟨hp.1, ih h' hp.2⟩

theorem containsSub_append_right (h t n : List Char) (hc : containsSub h n = true) :
    containsSub (h ++ t) n = true := by
  induction h with
  | nil =>
    simp only [containsSub, List.isEmpty_iff] at hc
    subst hc
    exact containsSub_nil_needle t
  | cons c h' ih =>
    simp only [containsSub, Bool.or_eq_true, List.cons_append] at hc ⊢
    cases hc with
    | inl hp => exact Or.inl (isPrefixOf_extend n (c :: h') t hp)
    | inr hr => exact Or.inr (ih hr)

theorem containsSub_joinSep_of_mem (sep : String) (l : List String) (d : String)
    (hd : d ∈ l) : containsSub (joinSep sep l).toList d.toList = true := by
  induction l with
  | nil => simp at hd
  | cons a rest ih =>
    cases rest with
    | nil =>
      simp only [List.mem_singleton] at hd
      subst hd
      have := containsSub_self_append d.toList []
      simpa using this
    | cons b rest' =>
      simp only [joinSep, String.toList, String.data_append]
      rcases List.mem_cons.mp hd with h1 | h2
      · subst h1
        rw [List.append_assoc]
        exact containsSub_self_append d.data
          (sep.data ++ (joinSep sep (b :: rest')).data)
      · exact containsSub_append_left _ _ _ (ih h2)

theorem containsStr_mid (a n b : String) : containsStr (a ++ n ++ b) n = true := by
  simp only [containsStr, String.toList, String.data_append]
  rw [List.append_assoc]
  exact containsSub_append_left _ _ _ (containsSub_self_append n.data b.data)

/-! Helper lemmas about the affirmative token and lowercasing. -/

theorem lowerChar_eq_shi (c : Char) : lowerChar c = '是' ↔ c = '是' := by
  constructor
  · intro h
    unfold lowerChar at h
    split at h
    · rename_i hcond
      exfalso
      obtain ⟨h65, h90⟩ := hcond
      have hval : c.toNat + 32 < 55296 := by omega
      have : (Char.ofNat (c.toNat + 32)).toNat = c.toNat + 32 := by
        unfold Char.ofNat
        split
        · rfl
        · rename_i hnv
          exact absurd (Or.inl hval) hnv
      rw [h] at this
      have hshi : ('是' : Char).toNat = 26159 := by decide
      omega
    · exact h
  · intro h
    subst h
    decide

theorem containsSub_singleton (h : List Char) (c : Char) :
    containsSub h [c] = true ↔ c ∈ h := by
  induction h with
  | nil => simp [containsSub]
  | cons d t ih =>
    simp only [containsSub, Bool.or_eq_true, List.isPrefixOf, Bool.and_eq_true,
      List.mem_cons, ih]
    constructor
    · rintro (⟨hcd, _⟩ | hm)
      · exact Or.inl (eq_of_beq hcd)
      · exact Or.inr hm
    · rintro (rfl | hm)
      · exact Or.inl ⟨by simp, by simp [List.isPrefixOf]⟩
      · exact Or.inr hm

theorem containsStr_toLower_shi (s : String) :
    containsStr (toLowerStr s) "是" = containsStr s "是" := by
  rw [Bool.eq_iff_iff]
  have htl : ("是" : String).toList = ['是'] := by decide
  simp only [containsStr, htl, containsSub_singleton]
  simp only [toLowerStr, String.toList, List.mem_map]
  constructor
  · rintro ⟨a, ha, haeq⟩
    rw [(lowerChar_eq_shi a).mp haeq] at ha
    exact ha
  · intro hm
    exact ⟨'是', hm, (lowerChar_eq_shi '是').mpr rfl⟩

/-! Retrieval Gate theorems. -/

/-- C1: any user message whose text contains (case-insensitively) one of the
configured trigger terms makes the Retrieval Gate answer `retrieve`, for every
possible behaviour of the model fallback, and the fallback is not consulted
(the invocation count stays 0). -/
theorem lexical_match_short_circuits (classify : String → String) (s : BotState)
    (m : Msg) (kw : String)
    (hm : (s.messages.filter isUserMsg).getLast? = some m)
    (hkw : kw ∈ knowledgeQueryKeywords)
    (hmatch : containsStr (toLowerStr m.content) (toLowerStr kw) = true) :
    shouldRetrieve classify s.messages = (true, 0)
    ∧ (routeBasedOnRetrieval classify s).route = some "retrieve" := by
  have hany : (knowledgeQueryKeywords.any (fun kw2 =>
      containsStr (toLowerStr m.content) (toLowerStr kw2))) = true :=
    List.any_eq_true.mpr ⟨kw, hkw, hmatch⟩
  have hsr : shouldRetrieve classify s.messages = (true, 0) := by
    unfold shouldRetrieve shouldRetrieveCore
    rw [hm]
    simp [hany]
  refine ⟨hsr, ?_⟩
  unfold routeBasedOnRetrieval
  rw [hsr]
  rfl

/-- C1 witness: the message 什么是RAG matches the trigger term 什么是, so the
gate retrieves even with a model stub that always answers 否, without calling
the stub. -/
theorem lexical_match_short_circuits_witness :
    shouldRetrieve (fun _ => "否") [⟨Role.user, "什么是RAG"⟩] = (true, 0)
    ∧ (routeBasedOnRetrieval (fun _ => "否")
        ⟨[⟨Role.user, "什么是RAG"⟩], none, none, none⟩).route = some "retrieve" :=
  lexical_match_short_circuits (fun _ => "否")
    ⟨[⟨Role.user, "什么是RAG"⟩], none, none, none⟩
    ⟨Role.user, "什么是RAG"⟩ "什么是" (by decide) (by decide) (by decide)

/-- C2: when no trigger term matches the latest user message, the gate routes
to `retrieve` iff the model fallback's answer contains the affirmative token
是 as a substring (after lowercasing); any other answer yields `generate`. -/
theorem gate_fallback_containment (ans : String) (s : BotState) (m : Msg)
    (hm : (s.messages.filter isUserMsg).getLast? = some m)
    (hnokw : (knowledgeQueryKeywords.any (fun kw =>
      containsStr (toLowerStr m.content) (toLowerStr kw))) = false) :
    ((routeBasedOnRetrieval (fun _ => ans) s).route = some "retrieve"
      ↔ containsStr (toLowerStr ans) "是" = true)
    ∧ (containsStr (toLowerStr ans) "是" = false
      → (routeBasedOnRetrieval (fun _ => ans) s).route = some "generate") := by
  have hsr : shouldRetrieve (fun _ => ans) s.messages
      = (containsStr (toLowerStr ans) "是", 1) := by
    unfold shouldRetrieve shouldRetrieveCore
    rw [hm]
    simp [hnokw]
  unfold routeBasedOnRetrieval
  rw [hsr]
  constructor
  · cases hc : containsStr (toLowerStr ans) "是" <;> simp [hc]
  · intro hc
    simp [hc]

/-- C2 witness: on the trigger-free message 你好, the ambiguous answer 好的
(no affirmative token) routes to `generate`, and the affirmative-containing
answer 是的 routes to `retrieve`. -/
theorem gate_fallback_containment_witness :
    (routeBasedOnRetrieval (fun _ => "好的")
      ⟨[⟨Role.user, "你好"⟩], none, none, none⟩).route = some "generate"
    ∧ (routeBasedOnRetrieval (fun _ => "是的")
      ⟨[⟨Role.user, "你好"⟩], none, none, none⟩).route = some "retrieve" := by
  constructor
  · exact (gate_fallback_containment "好的"
      ⟨[⟨Role.user, "你好"⟩], none, none, none⟩ ⟨Role.user, "你好"⟩
      (by decide) (by decide)).2 (by decide)
  · exact ((gate_fallback_containment "是的"
      ⟨[⟨Role.user, "你好"⟩], none, none, none⟩ ⟨Role.user, "你好"⟩
      (by decide) (by decide)).1).mpr (by decide)

/-- C9: with no user-role message in the conversation, the gate returns
`generate` for every trigger-term list and every model fallback, consulting
neither (the fallback invocation count is 0 and the term list is irrelevant). -/
theorem gate_no_user_generates (kws : List String) (classify : String → String)
    (s : BotState) (h : s.messages.filter isUserMsg = []) :
    shouldRetrieveCore kws classify s.messages = (false, 0)
    ∧ (routeBasedOnRetrieval classify s).route = some "generate" := by
  have hnone : (s.messages.filter isUserMsg).getLast? = none := by
    rw [h]; rfl
  have hcore : ∀ kws2 : List String,
      shouldRetrieveCore kws2 classify s.messages = (false, 0) := by
    intro kws2
    unfold shouldRetrieveCore
    rw [hnone]
  refine ⟨hcore kws, ?_⟩
  unfold routeBasedOnRetrieval shouldRetrieve
  rw [hcore knowledgeQueryKeywords]
  rfl

/-- C9 witness: an assistant-only history routes to `generate` with zero
fallback calls, whatever the term list. -/
theorem gate_no_user_generates_witness :
    shouldRetrieveCore ["你"] (fun _ => "是") [⟨Role.assistant, "你好"⟩] = (false, 0)
    ∧ (routeBasedOnRetrieval (fun _ => "是")
        ⟨[⟨Role.assistant, "你好"⟩], none, none, none⟩).route = some "generate" :=
  gate_no_user_generates ["你"] (fun _ => "是")
    ⟨[⟨Role.assistant, "你好"⟩], none, none, none⟩ (by decide)

/-- C10: on a trigger-free user message the gate classifies the fallback's
answer as affirmative exactly when the answer contains the character 是
anywhere as a substring, so the negative answer 不是 also routes to
`retrieve`, and only answers without that character route to `generate`. -/
theorem gate_affirmative_substring_quirk (ans : String) (s : BotState) (m : Msg)
    (hm : (s.messages.filter isUserMsg).getLast? = some m)
    (hnokw : (knowledgeQueryKeywords.any (fun kw =>
      containsStr (toLowerStr m.content) (toLowerStr kw))) = false) :
    (routeBasedOnRetrieval (fun _ => ans) s).route = some "retrieve"
      ↔ containsStr ans "是" = true := by
  have hsr : shouldRetrieve (fun _ => ans) s.messages
      = (containsStr (toLowerStr ans) "是", 1) := by
    unfold shouldRetrieve shouldRetrieveCore
    rw [hm]
    simp [hnokw]
  unfold routeBasedOnRetrieval
  rw [hsr, containsStr_toLower_shi]
  cases hc : containsStr ans "是" <;> simp [hc]

/-- C10 witness: the negative answer 不是 contains 是, so the gate routes the
trigger-free message 下午好 to `retrieve`. -/
theorem gate_affirmative_substring_quirk_witness :
    (routeBasedOnRetrieval (fun _ => "不是")
      ⟨[⟨Role.user, "下午好"⟩], none, none, none⟩).route = some "retrieve" :=
  (gate_affirmative_substring_quirk "不是"
    ⟨[⟨Role.user, "下午好"⟩], none, none, none⟩ ⟨Role.user, "下午好"⟩
    (by decide) (by decide)).mpr (by decide)

/-! Response Composer theorems. -/

/-- C3: with an empty retrieval result (the channel unset, or set to the
empty list after a `retrieve` route found nothing), the composer uses the
plain conversational system instructions — which contain no grounding
section — and still returns a normal update appending exactly one assistant
message, so empty retrieval is a valid result, not an error. -/
theorem empty_retrieval_plain_branch (llm : Prompt → String) (count : String → Nat)
    (budget : Nat) (envDefault : Option String) (state : BotState)
    (h : state.retrieval_documents = none ∨ state.retrieval_documents = some []) :
    systemPromptFor state.retrieval_documents = SYSTEM_TEMPLATE
    ∧ containsStr SYSTEM_TEMPLATE "以下是与查询相关的检索结果" = false
    ∧ (generateResponse llm count budget envDefault state).messages.map Msg.role
        = [Role.assistant] := by
  have hplain : systemPromptFor state.retrieval_documents = SYSTEM_TEMPLATE := by
    rcases h with h | h <;> rw [h] <;> rfl
  refine ⟨hplain, by decide, ?_⟩
  unfold generateResponse
  rfl

/-- C3 witness: route `retrieve` with zero passages found still composes the
plain prompt and yields one assistant turn. -/
theorem empty_retrieval_plain_branch_witness :
    systemPromptFor (some []) = SYSTEM_TEMPLATE
    ∧ containsStr SYSTEM_TEMPLATE "以下是与查询相关的检索结果" = false
    ∧ (generateResponse (fun _ => "回复") (fun s => s.length) 4000 none
        ⟨[⟨Role.user, "你好"⟩], none, some [], some "retrieve"⟩).messages.map Msg.role
        = [Role.assistant] := by
  have h := empty_retrieval_plain_branch (fun _ => "回复") (fun s => s.length) 4000 none
    ⟨[⟨Role.user, "你好"⟩], none, some [], some "retrieve"⟩ (Or.inr rfl)
  exact h

/-- C4: with a non-empty retrieval result, the composed system instructions
are the template followed by the passages joined in ranked order, so they
contain the ranked-order concatenation — and hence every retrieved passage
text — verbatim as a substring. -/
theorem grounded_prompt_contains_passages (state : BotState) (docs : List String)
    (h : state.retrieval_documents = some docs) (hne : docs ≠ []) :
    systemPromptFor state.retrieval_documents
      = SYSTEM_TEMPLATE ++ RETRIEVAL_HEADER ++ joinSep "\n\n" docs ++ RETRIEVAL_FOOTER
    ∧ containsStr (systemPromptFor state.retrieval_documents) (joinSep "\n\n" docs) = true
    ∧ ∀ d ∈ docs, containsStr (systemPromptFor state.retrieval_documents) d = true := by
  have hlen : (0 < docs.length) := List.length_pos.mpr hne
  have heq : systemPromptFor state.retrieval_documents
      = SYSTEM_TEMPLATE ++ RETRIEVAL_HEADER ++ joinSep "\n\n" docs ++ RETRIEVAL_FOOTER := by
    rw [h]
    unfold systemPromptFor hasDocs
    simp [hlen]
  refine ⟨heq, ?_, ?_⟩
  · rw [heq]
    exact containsStr_mid (SYSTEM_TEMPLATE ++ RETRIEVAL_HEADER) _ RETRIEVAL_FOOTER
  · intro d hd
    rw [heq]
    simp only [containsStr, String.toList, String.data_append]
    rw [List.append_assoc]
    apply containsSub_append_left
    have hj := containsSub_joinSep_of_mem "\n\n" docs d hd
    simp only [String.toList] at hj
    exact containsSub_append_right _ _ _ hj

/-- C4 witness: two concrete passages appear verbatim, in order, in the
grounded system instructions. -/
theorem grounded_prompt_contains_passages_witness :
    containsStr (systemPromptFor (some ["文档一", "文档二"]))
      (joinSep "\n\n" ["文档一", "文档二"]) = true
    ∧ containsStr (systemPromptFor (some ["文档一", "文档二"])) "文档一" = true
    ∧ containsStr (systemPromptFor (some ["文档一", "文档二"])) "文档二" = true := by
  have h := grounded_prompt_contains_passages
    ⟨[⟨Role.user, "查询"⟩], none, some ["文档一", "文档二"], some "retrieve"⟩
    ["文档一", "文档二"] rfl (by decide)
  exact ⟨h.2.1, h.2.2 "文档一" (by decide), h.2.2 "文档二" (by decide)⟩

/-! Session Orchestrator theorem. -/

theorem applyUpd_messages_pre (s : BotState) (u : Upd) :
    s.messages <+: (applyUpd s u).messages :=
  ⟨u.messages, rfl⟩

theorem applyUpd_ite_pre (c : Prop) [Decidable c] (s : BotState) (u : Upd) :
    s.messages <+: (if c then applyUpd s u else s).messages := by
  split
  · exact applyUpd_messages_pre s u
  · exact List.prefix_rfl

/-- C8: across one whole `submit_turn` of the graph — input merge, router
node, optional retrieve node, generate node — the prior Turn sequence is a
prefix of the resulting one: Turns are only appended, never reordered,
deleted, or modified, and trimming inside the composer never touches the
persisted state. -/
theorem turn_appends_only (classify : String → String) (llm : Prompt → String)
    (store : List String) (sim : String → String → Int)
    (count : String → Nat) (budget : Nat) (envDefault : Option String)
    (s0 : BotState) (input : Upd) :
    s0.messages <+:
      (runTurn classify llm store sim count budget envDefault s0 input).messages := by
  simp only [runTurn]
  exact ((applyUpd_messages_pre s0 input).trans
    ((applyUpd_messages_pre _ _).trans
      ((applyUpd_ite_pre _ _ _).trans (applyUpd_messages_pre _ _))))

/-! Document Retriever theorems. -/

/-- C7: the retriever returns at most `k` passages ordered by non-increasing
similarity to the query, the empty sequence on an empty store, and the
`retrieveDocuments` node always asks for `k = 3` passages for the latest
user message. -/
theorem retriever_topk_sorted (store : List String) (sim : String → String → Int)
    (query : String) (k : Nat) :
    (similaritySearch store sim query k).length ≤ k
    ∧ List.Pairwise (fun a b => sim query b ≤ sim query a)
        (similaritySearch store sim query k)
    ∧ (store = [] → similaritySearch store sim query k = [])
    ∧ (∀ (s : BotState) (m : Msg),
        (s.messages.filter isUserMsg).getLast? = some m →
        (retrieveDocumentsNode store sim s).retrieval_documents
          = some (similaritySearch store sim m.content 3)) := by
  refine ⟨?_, ?_, ?_, ?_⟩
  · unfold similaritySearch
    calc (List.take k (store.insertionSort fun a b => sim query b ≤ sim query a)).length
        = min k (store.insertionSort fun a b => sim query b ≤ sim query a).length := by
          rw [List.length_take]
      _ ≤ k := Nat.min_le_left _ _
  · unfold similaritySearch
    have hts : IsTotal String (fun a b => sim query b ≤ sim query a) :=
      ⟨fun a b => Int.le_total (sim query b) (sim query a)⟩
    have htr : IsTrans String (fun a b => sim query b ≤ sim query a) :=
      ⟨fun _ _ _ hab hbc => Int.le_trans hbc hab⟩
    have hs := @List.sorted_insertionSort String
      (fun a b => sim query b ≤ sim query a) _ hts htr store
    exact List.Pairwise.sublist (List.take_sublist _ _) hs
  · intro h
    subst h
    unfold similaritySearch
    simp [List.insertionSort]
  · intro s m hm
    unfold retrieveDocumentsNode
    rw [hm]

/-- C7 witness: a four-passage store with length-based similarity yields
exactly the three longest passages in non-increasing similarity order, and the
node queries with the latest user message at `k = 3`. -/
theorem retriever_topk_sorted_witness :
    (similaritySearch ["a", "bb", "c", "ddd"] (fun _ p => (p.length : Int)) "q" 3).length ≤ 3
    ∧ List.Pairwise (fun a b => ((b.length : Int)) ≤ ((a.length : Int)))
        (similaritySearch ["a", "bb", "c", "ddd"] (fun _ p => (p.length : Int)) "q" 3)
    ∧ (retrieveDocumentsNode ["a", "bb", "c", "ddd"] (fun _ p => (p.length : Int))
        ⟨[⟨Role.user, "q"⟩], none, none, none⟩).retrieval_documents
        = some (similaritySearch ["a", "bb", "c", "ddd"] (fun _ p => (p.length : Int)) "q" 3) := by
  have h := retriever_topk_sorted ["a", "bb", "c", "ddd"]
    (fun _ p => (p.length : Int)) "q" 3
  exact ⟨h.1, h.2.1, h.2.2.2 ⟨[⟨Role.user, "q"⟩], none, none, none⟩
    ⟨Role.user, "q"⟩ (by decide)⟩

/-! Context Window Manager lemmas and theorems. -/

theorem isUserMsg_eq_true (m : Msg) (h : m.role = Role.user) : isUserMsg m = true := by
  unfold isUserMsg
  rw [h]

theorem isUserMsg_role (m : Msg) (h : isUserMsg m = true) : m.role = Role.user := by
  unfold isUserMsg at h
  rcases hr : m.role with _ | _ | _ <;> rw [hr] at h <;> first | rfl | exact absurd h (by simp)

theorem isSysMsg_of_user (m : Msg) (h : isUserMsg m = true) : isSysMsg m = false := by
  unfold isSysMsg
  rw [isUserMsg_role m h]

theorem candIdx_lt (msgs : List Msg) (i : Nat) (h : i ∈ candIdx msgs) :
    i < msgs.length :=
  List.mem_range.mp (List.mem_filter.mp h).1

theorem candIdx_startOK (msgs : List Msg) (i : Nat) (h : i ∈ candIdx msgs) :
    startOK msgs i = true :=
  (List.mem_filter.mp h).2

theorem trimmer_eq_keepFrom (count : String → Nat) (budget : Nat) (msgs : List Msg) :
    ∃ i, trimmer count budget msgs = keepFrom msgs i
      ∧ (i ∈ candIdx msgs ∨ i = msgs.length) := by
  unfold trimmer
  cases hf : (candIdx msgs).find? (fun i => fitsAt count budget msgs i) with
  | some i => exact ⟨i, rfl, Or.inl (List.mem_of_find?_eq_some hf)⟩
  | none =>
    cases hl : (candIdx msgs).getLast? with
    | some i => exact ⟨i, rfl, Or.inl (List.mem_of_getLast?_eq_some hl)⟩
    | none => exact ⟨msgs.length, rfl, Or.inr rfl⟩

theorem keepFrom_sublist (msgs : List Msg) (i : Nat) :
    List.Sublist (keepFrom msgs i) msgs := by
  unfold keepFrom
  have h := List.Sublist.append (@List.filter_sublist _ isSysMsg (msgs.take i))
    (List.Sublist.refl (msgs.drop i))
  rwa [List.take_append_drop] at h

theorem keepFrom_filter_sys (msgs : List Msg) (i : Nat) :
    (keepFrom msgs i).filter isSysMsg = msgs.filter isSysMsg := by
  unfold keepFrom
  rw [List.filter_append, List.filter_filter]
  simp only [Bool.and_self]
  rw [← List.filter_append, List.take_append_drop]

theorem find_user_keepFrom (msgs : List Msg) (i : Nat)
    (h : i ∈ candIdx msgs ∨ i = msgs.length) :
    ∀ m, (keepFrom msgs i).find? (fun x => !(isSysMsg x)) = some m
      → m.role = Role.user := by
  intro m hm
  have hpre : ((msgs.take i).filter isSysMsg).find? (fun x => !(isSysMsg x)) = none := by
    apply List.find?_eq_none.mpr
    intro x hx
    have hsx := (List.mem_filter.mp hx).2
    simp [hsx]
  unfold keepFrom at hm
  rw [List.find?_append, hpre] at hm
  simp only [Option.none_or] at hm
  rcases h with hc | hl
  · have hlt := candIdx_lt msgs i hc
    have hok := candIdx_startOK msgs i hc
    cases hd : msgs.drop i with
    | nil =>
      have hlen := List.drop_eq_nil_iff.mp hd
      omega
    | cons m0 rest =>
      unfold startOK at hok
      rw [hd] at hok hm
      have hm0 : isUserMsg m0 = true := hok
      rw [List.find?_cons_of_pos _ (by simp [isSysMsg_of_user m0 hm0])] at hm
      cases hm
      exact isUserMsg_role _ hm0
  · rw [hl, List.drop_length] at hm
    simp at hm

/-- C5 counterexample: with token counter `length` and budget 5, the history
[system "s", user "aaaa", user "bbbbbb"] trims to [system "s", user "bbbbbb"],
which is not a contiguous suffix of the input, exceeds the budget, and does
not start on a user Turn — so the claimed conjunction fails as stated (its
whole-turn and system-retention parts do hold here). -/
theorem trimmer_claim_counterexample :
    ¬ (trimmer (fun s => s.length) 5
          [⟨Role.system, "s"⟩, ⟨Role.user, "aaaa"⟩, ⟨Role.user, "bbbbbb"⟩]
        <:+ [⟨Role.system, "s"⟩, ⟨Role.user, "aaaa"⟩, ⟨Role.user, "bbbbbb"⟩]
      ∧ totalTokens (fun s => s.length)
          (trimmer (fun s => s.length) 5
            [⟨Role.system, "s"⟩, ⟨Role.user, "aaaa"⟩, ⟨Role.user, "bbbbbb"⟩]) ≤ 5
      ∧ startsOnUser
          (trimmer (fun s => s.length) 5
            [⟨Role.system, "s"⟩, ⟨Role.user, "aaaa"⟩, ⟨Role.user, "bbbbbb"⟩]) = true
      ∧ (∀ m ∈ ([⟨Role.system, "s"⟩, ⟨Role.user, "aaaa"⟩,
            ⟨Role.user, "bbbbbb"⟩] : List Msg), isSysMsg m = true →
          m ∈ trimmer (fun s => s.length) 5
            [⟨Role.system, "s"⟩, ⟨Role.user, "aaaa"⟩, ⟨Role.user, "bbbbbb"⟩])
      ∧ List.Sublist
          (trimmer (fun s => s.length) 5
            [⟨Role.system, "s"⟩, ⟨Role.user, "aaaa"⟩, ⟨Role.user, "bbbbbb"⟩])
          [⟨Role.system, "s"⟩, ⟨Role.user, "aaaa"⟩, ⟨Role.user, "bbbbbb"⟩]) := by
  decide

/-- C5 amended: for every token counter, budget and Turn sequence, the
trimmer's output (a) is a subsequence of the input — whole turns only, in
order, unmodified; (b) retains exactly the input's system Turns; (c) consists
of the system Turns of some dropped prefix followed by a contiguous suffix of
the input; (d) has a user Turn as its first non-system Turn, if any; and
(e) its cumulative token count is within the budget whenever some
user-starting cut fits the budget (when none fits, the most recent
user-starting suffix is kept even over budget). -/
theorem trimmer_amended (count : String → Nat) (budget : Nat) (msgs : List Msg) :
    List.Sublist (trimmer count budget msgs) msgs
    ∧ (trimmer count budget msgs).filter isSysMsg = msgs.filter isSysMsg
    ∧ (∃ i, i ≤ msgs.length
        ∧ trimmer count budget msgs = (msgs.take i).filter isSysMsg ++ msgs.drop i)
    ∧ (∀ m, (trimmer count budget msgs).find? (fun x => !(isSysMsg x)) = some m
        → m.role = Role.user)
    ∧ ((∃ i ∈ candIdx msgs, fitsAt count budget msgs i = true)
        → totalTokens count (trimmer count budget msgs) ≤ budget) := by
  obtain ⟨i, heq, hcase⟩ := trimmer_eq_keepFrom count budget msgs
  have hile : i ≤ msgs.length := by
    rcases hcase with hc | hl
    · exact Nat.le_of_lt (candIdx_lt msgs i hc)
    · omega
  refine ⟨?_, ?_, ⟨i, hile, ?_⟩, ?_, ?_⟩
  · rw [heq]
    exact keepFrom_sublist msgs i
  · rw [heq]
    exact keepFrom_filter_sys msgs i
  · rw [heq]
    rfl
  · rw [heq]
    exact find_user_keepFrom msgs i hcase
  · rintro ⟨j, hj, hfit⟩
    have hsome : ((candIdx msgs).find? (fun k => fitsAt count budget msgs k)).isSome :=
      List.find?_isSome.mpr ⟨j, hj, hfit⟩
    obtain ⟨k, hk⟩ := Option.isSome_iff_exists.mp hsome
    have hpk := List.find?_some hk
    unfold trimmer
    rw [hk]
    exact of_decide_eq_true hpk

/-- C5 amended witness: the amended statement at the counterexample input. -/
theorem trimmer_amended_witness :
    List.Sublist
      (trimmer (fun s => s.length) 5
        [⟨Role.system, "s"⟩, ⟨Role.user, "aaaa"⟩, ⟨Role.user, "bbbbbb"⟩])
      [⟨Role.system, "s"⟩, ⟨Role.user, "aaaa"⟩, ⟨Role.user, "bbbbbb"⟩]
    ∧ (trimmer (fun s => s.length) 5
        [⟨Role.system, "s"⟩, ⟨Role.user, "aaaa"⟩, ⟨Role.user, "bbbbbb"⟩]).filter isSysMsg
      = ([⟨Role.system, "s"⟩, ⟨Role.user, "aaaa"⟩,
          ⟨Role.user, "bbbbbb"⟩] : List Msg).filter isSysMsg
    ∧ (∃ i, i ≤ ([⟨Role.system, "s"⟩, ⟨Role.user, "aaaa"⟩,
          ⟨Role.user, "bbbbbb"⟩] : List Msg).length
        ∧ trimmer (fun s => s.length) 5
            [⟨Role.system, "s"⟩, ⟨Role.user, "aaaa"⟩, ⟨Role.user, "bbbbbb"⟩]
          = (([⟨Role.system, "s"⟩, ⟨Role.user, "aaaa"⟩,
              ⟨Role.user, "bbbbbb"⟩] : List Msg).take i).filter isSysMsg
            ++ ([⟨Role.system, "s"⟩, ⟨Role.user, "aaaa"⟩,
              ⟨Role.user, "bbbbbb"⟩] : List Msg).drop i)
    ∧ (∀ m, (trimmer (fun s => s.length) 5
          [⟨Role.system, "s"⟩, ⟨Role.user, "aaaa"⟩,
            ⟨Role.user, "bbbbbb"⟩]).find? (fun x => !(isSysMsg x)) = some m
        → m.role = Role.user)
    ∧ ((∃ i ∈ candIdx [⟨Role.system, "s"⟩, ⟨Role.user, "aaaa"⟩, ⟨Role.user, "bbbbbb"⟩],
          fitsAt (fun s => s.length) 5
            [⟨Role.system, "s"⟩, ⟨Role.user, "aaaa"⟩, ⟨Role.user, "bbbbbb"⟩] i = true)
        → totalTokens (fun s => s.length)
            (trimmer (fun s => s.length) 5
              [⟨Role.system, "s"⟩, ⟨Role.user, "aaaa"⟩, ⟨Role.user, "bbbbbb"⟩]) ≤ 5) :=
  trimmer_amended (fun s => s.length) 5
    [⟨Role.system, "s"⟩, ⟨Role.user, "aaaa"⟩, ⟨Role.user, "bbbbbb"⟩]

/-- C6: when the most recent Turn is a user Turn whose token count alone
exceeds the budget, the trimmer still includes it — the latest user input is
never silently dropped. -/
theorem oversized_last_turn_kept (count : String → Nat) (budget : Nat)
    (pre : List Msg) (m : Msg)
    (hu : m.role = Role.user) (hover : budget < count m.content) :
    m ∈ trimmer count budget (pre ++ [m]) := by
  have hlen : (pre ++ [m]).length = pre.length + 1 := by simp
  have hmem_keep : ∀ i ∈ candIdx (pre ++ [m]), m ∈ keepFrom (pre ++ [m]) i := by
    intro i hi
    have hilt : i < pre.length + 1 := by
      rw [← hlen]
      exact candIdx_lt _ i hi
    have hile : i ≤ pre.length := Nat.lt_succ_iff.mp hilt
    have hdrop : (pre ++ [m]).drop i = pre.drop i ++ [m] :=
      List.drop_append_of_le_length hile
    unfold keepFrom
    rw [hdrop]
    exact List.mem_append.mpr (Or.inr (List.mem_append.mpr
      (Or.inr (List.mem_singleton.mpr rfl))))
  have hfits_false : ∀ i ∈ candIdx (pre ++ [m]),
      ¬ (fitsAt count budget (pre ++ [m]) i = true) := by
    intro i hi hfit
    have hmem := hmem_keep i hi
    have hle : count m.content ≤ totalTokens count (keepFrom (pre ++ [m]) i) := by
      unfold totalTokens
      exact List.le_sum_of_mem (List.mem_map_of_mem _ hmem)
    have hbud := of_decide_eq_true hfit
    omega
  have hfind : (candIdx (pre ++ [m])).find?
      (fun i => fitsAt count budget (pre ++ [m]) i) = none :=
    List.find?_eq_none.mpr hfits_false
  have hcand : pre.length ∈ candIdx (pre ++ [m]) := by
    apply List.mem_filter.mpr
    refine ⟨List.mem_range.mpr (by omega), ?_⟩
    unfold startOK
    have hdrop : (pre ++ [m]).drop pre.length = [m] := by
      rw [List.drop_append_of_le_length (Nat.le_refl _), List.drop_length]
      rfl
    rw [hdrop]
    exact isUserMsg_eq_true m hu
  have hne : candIdx (pre ++ [m]) ≠ [] := by
    intro hnil
    rw [hnil] at hcand
    exact absurd hcand (List.not_mem_nil _)
  obtain ⟨j, hj⟩ := Option.isSome_iff_exists.mp (List.getLast?_isSome.mpr hne)
  unfold trimmer
  rw [hfind, hj]
  exact hmem_keep j (List.mem_of_getLast?_eq_some hj)

/-- C6 witness: a single six-token user Turn against a budget of 4 is kept. -/
theorem oversized_last_turn_kept_witness :
    (⟨Role.user, "aaaaaa"⟩ : Msg)
      ∈ trimmer (fun s => s.length) 4 [⟨Role.user, "aaaaaa"⟩] :=
  oversized_last_turn_kept (fun s => s.length) 4 [] ⟨Role.user, "aaaaaa"⟩
    rfl (by decide)
